import Mathlib

/-!
# Verification model of the `vlc-rc` client (du-toit/vlc-rc)

Shallow embedding of the protocol layer of the crate:

* `src/client/socket.rs` — the prompt/whitespace artifact trimming applied by
  the custom `read_line` (`trim_output`), and the two read primitives
  (line-oriented and prompt-bounded block reads).
* `src/client/media.rs` — the `Track` and `Subtitle` grammar extractors.
  The two `regex` patterns (written there in `(?x)` free-spacing mode) are
  embedded as explicit backtracking matchers with the crate's leftmost-first,
  greedy preference semantics: each `+`/`?` quantifier tries the longest
  (resp. consuming) alternative first and backtracks through the
  continuation, and the search tries start positions left to right.
* `src/client.rs` — the command façade: `get_volume`, `set_volume`, `play`,
  `stop`, `get_time`, `is_playing`, `playlist`. The unbounded convergence
  loops (`set_volume`, `play`, `stop`) are embedded with an explicit fuel
  parameter; running out of fuel yields `none` (the loop did not converge
  within `fuel` iterations), any other outcome is exactly the code's.

Strings are modelled as `List Char`. The session socket is modelled as the
stream of bytes the server will send (`input`) together with the trace of
command lines written so far (`sent`).  A read on an exhausted / unterminated
stream is a `Transport` (I/O timeout) error, matching the blocking TCP socket
with a read timeout.  Character classes (`\s`, `\d`, Rust's `str::trim`)
are modelled on their ASCII fragment, which covers the protocol's output.
-/

/-- The crate's error type (`src/error.rs`).  `Error::Io`'s payload
(the wrapped `std::io::Error`) is elided: the code never inspects it. -/
inductive Error where
  | IoErr : Error
  | ParseErr : Error
deriving DecidableEq, Repr

/-- `MIN_VOLUME` from `src/client/media.rs`. -/
def MIN_VOLUME : Nat := 0

/-- `MAX_VOLUME` from `src/client/media.rs`. -/
def MAX_VOLUME : Nat := 200

/-- The prompt byte `PROMPT = b'>'` from `src/client/socket.rs`. -/
def PROMPT : Char := '>'

/-- `trim_output` from `src/client/socket.rs`: while the buffer starts with
the prompt character or a space, remove the first character and recurse. -/
def trim_output : List Char → List Char
  | [] => []
  | c :: cs => if c = '>' || c = ' ' then trim_output cs else c :: cs

/-- ASCII fragment of the whitespace class used both by the regex `\s`
class and by Rust's `str::trim` (`char::is_whitespace`). -/
def isWsChar (c : Char) : Bool :=
  c = ' ' || c = '\t' || c = '\n' || c = '\x0b' || c = '\x0c' || c = '\r'

/-- The regex `\d` / `[\d]` class (ASCII decimal digits). -/
def isDigitChar (c : Char) : Bool :=
  '0' ≤ c && c ≤ '9'

/-- The regex `.` class: any character except a line terminator. -/
def isDotChar (c : Char) : Bool :=
  c != '\n'

/-- Rust's `str::trim`: drop whitespace from both ends. -/
def rustTrim (l : List Char) : List Char :=
  ((l.dropWhile isWsChar).reverse.dropWhile isWsChar).reverse

/-- Accumulator pass of Rust's unsigned decimal `from_str`: every character
must be a digit, the value is built most-significant digit first. -/
def parseDigitsAux : List Char → Nat → Option Nat
  | [], acc => some acc
  | c :: cs, acc =>
    if isDigitChar c then parseDigitsAux cs (acc * 10 + (c.toNat - 48)) else none

/-- A non-empty all-digit string parsed as a natural number. -/
def parseNatList (l : List Char) : Option Nat :=
  match l with
  | [] => none
  | _ :: _ => parseDigitsAux l 0

/-- Rust `u64`-style unsigned `from_str` shape: an optional leading `+`
followed by at least one digit (no other characters). -/
def parseUnsignedNat (l : List Char) : Option Nat :=
  match l with
  | [] => none
  | c :: rest => if c = '+' then parseNatList rest else parseNatList l

/-- Rust `u16::from_str` (`"...".parse::<u16>()`): unsigned parse plus the
16-bit range check (overflow is a parse error). -/
def parseU16 (l : List Char) : Option Nat :=
  (parseUnsignedNat l).bind fun n => if n ≤ 65535 then some n else none

/-- Rust `u32::from_str` (`"...".parse::<u32>()`). -/
def parseU32 (l : List Char) : Option Nat :=
  (parseUnsignedNat l).bind fun n => if n ≤ 4294967295 then some n else none

/-- Rust signed `from_str` shape: optional `+` or `-` sign, then digits. -/
def parseSignedInt (l : List Char) : Option Int :=
  match l with
  | [] => none
  | c :: rest =>
    if c = '+' then (parseNatList rest).map Int.ofNat
    else if c = '-' then (parseNatList rest).map (fun n => -(n : Int))
    else (parseNatList l).map Int.ofNat

/-- Rust `i32::from_str` (`"...".parse::<i32>()`): signed parse plus the
32-bit range check. -/
def parseI32 (l : List Char) : Option Int :=
  (parseSignedInt l).bind fun v =>
    if -2147483648 ≤ v ∧ v ≤ 2147483647 then some v else none

/-! ## Backtracking matcher combinators

The `regex` crate uses leftmost-first match semantics: among the candidate
matches, the one preferred by a backtracking engine that tries greedy
quantifiers longest-first wins.  The combinators below realise exactly that
preference order for the fixed patterns of `media.rs`: a quantifier hands
each candidate split (longest first) to the continuation `k`, and the first
candidate for which the whole remainder of the pattern succeeds is kept. -/

/-- Length of the maximal run of characters satisfying `p` at the front. -/
def runLength (p : Char → Bool) : List Char → Nat
  | [] => 0
  | c :: cs => if p c then runLength p cs + 1 else 0

/-- Try the continuation on splits `(s.take i, s.drop i)` for
`i = n, n-1, …, 1`, returning the first success. -/
def tryLens {α : Type} (s : List Char) (k : List Char → List Char → Option α) :
    Nat → Option α
  | 0 => none
  | i + 1 =>
    match k (s.take (i + 1)) (s.drop (i + 1)) with
    | some r => some r
    | none => tryLens s k i

/-- Greedy `class+`: consume between 1 and the maximal run of characters
satisfying `p`, longest first, backtracking through the continuation.  The
continuation receives the consumed characters and the rest. -/
def plusGreedy {α : Type} (p : Char → Bool) (s : List Char)
    (k : List Char → List Char → Option α) : Option α :=
  tryLens s k (runLength p s)

/-- Greedy `c?`: try consuming a literal `c` first, fall back to consuming
nothing. -/
def optChar {α : Type} (c : Char) (s : List Char) (k : List Char → Option α) :
    Option α :=
  match s with
  | [] => k s
  | c' :: rest =>
    if c' = c then
      match k rest with
      | some r => some r
      | none => k s
    else k s

/-- Greedy `c?` that also reports the consumed characters (for a capture
group containing the optional character). -/
def optCapChar {α : Type} (c : Char) (s : List Char)
    (k : List Char → List Char → Option α) : Option α :=
  match s with
  | [] => k [] s
  | c' :: rest =>
    if c' = c then
      match k [c'] rest with
      | some r => some r
      | none => k [] s
    else k [] s

/-- A literal character. -/
def litChar {α : Type} (c : Char) (s : List Char) (k : List Char → Option α) :
    Option α :=
  match s with
  | [] => none
  | c' :: rest => if c' = c then k rest else none

/-- A single character of a class (e.g. one `\s`). -/
def clsChar {α : Type} (p : Char → Bool) (s : List Char) (k : List Char → Option α) :
    Option α :=
  match s with
  | [] => none
  | c :: rest => if p c then k rest else none

/-- The literal `\d\d:\d\d:\d\d` duration anchor, captured. -/
def matchDuration {α : Type} (s : List Char) (k : List Char → List Char → Option α) :
    Option α :=
  match s with
  | d1 :: d2 :: ':' :: d3 :: d4 :: ':' :: d5 :: d6 :: rest =>
    if isDigitChar d1 && isDigitChar d2 && isDigitChar d3 && isDigitChar d4 &&
        isDigitChar d5 && isDigitChar d6 then
      k [d1, d2, ':', d3, d4, ':', d5, d6] rest
    else none
  | _ => none

/-- Unanchored search: try to match at each start position, leftmost wins
(the `regex` crate's `captures` finds the leftmost match). -/
def findMatch {α : Type} (m : List Char → Option α) : List Char → Option α
  | [] => m []
  | s@(_ :: rest) =>
    match m s with
    | some r => some r
    | none => findMatch m rest

/-- The track-line pattern of `Track::from_parts` applied at one position:
`\| \s+ [\*]? (?P<index>[\d]+) \s+ - \s+ (?P<title>.+) \s \(
(?P<length>\d\d:\d\d:\d\d) .*` — the trailing `.*` always matches and binds
nothing, so it is elided.  Returns the `index`, `title` and `length`
captures. -/
def trackMatchAt (s : List Char) : Option (List Char × List Char × List Char) :=
  litChar '|' s fun r0 =>
  plusGreedy isWsChar r0 fun _ r1 =>
  optChar '*' r1 fun r2 =>
  plusGreedy isDigitChar r2 fun idx r3 =>
  plusGreedy isWsChar r3 fun _ r4 =>
  litChar '-' r4 fun r5 =>
  plusGreedy isWsChar r5 fun _ r6 =>
  plusGreedy isDotChar r6 fun title r7 =>
  clsChar isWsChar r7 fun r8 =>
  litChar '(' r8 fun r9 =>
  matchDuration r9 fun len _ =>
  some (idx, title, len)

/-- The subtitle-line pattern of `Subtitle::from_parts` applied at one
position: `\| \s+ (?P<index>[\-]?[\d]+) \s+ - \s+ (?P<title>.+)`.
Returns the `index` (sign included) and `title` captures. -/
def subtitleMatchAt (s : List Char) : Option (List Char × List Char) :=
  litChar '|' s fun r0 =>
  plusGreedy isWsChar r0 fun _ r1 =>
  optCapChar '-' r1 fun sign r2 =>
  plusGreedy isDigitChar r2 fun digits r3 =>
  plusGreedy isWsChar r3 fun _ r4 =>
  litChar '-' r4 fun r5 =>
  plusGreedy isWsChar r5 fun _ r6 =>
  plusGreedy isDotChar r6 fun title _ =>
  some (sign ++ digits, title)

/-- `Track` from `src/client/media.rs`. -/
structure Track where
  index : Int
  title : List Char
  length : List Char
deriving DecidableEq, Repr

/-- `Subtitle` from `src/client/media.rs`. -/
structure Subtitle where
  index : Int
  title : List Char
deriving DecidableEq, Repr

/-- `Track::from_parts`: run the track regex (leftmost-first), then parse the
`index` capture as an `i32` (`caps["index"].parse().ok()?`). -/
def Track.from_parts (line : List Char) : Option Track :=
  match findMatch trackMatchAt line with
  | none => none
  | some (idx, title, len) =>
    match parseI32 idx with
    | none => none
    | some i => some ⟨i, title, len⟩

/-- `Subtitle::from_parts`: run the subtitle regex, then parse the `index`
capture as an `i32`. -/
def Subtitle.from_parts (line : List Char) : Option Subtitle :=
  match findMatch subtitleMatchAt line with
  | none => none
  | some (idx, title) =>
    match parseI32 idx with
    | none => none
    | some i => some ⟨i, title⟩







/-! ## Block splitting (Rust `str::lines`) -/

/-- Split on `'\n'` terminators; a trailing fragment without a terminator is
its own line, and the empty remainder after a final `'\n'` yields no line
(Rust `str::lines` semantics, before `'\r'` stripping). -/
def splitLinesAux : List Char → List Char → List (List Char)
  | [], acc => if acc.isEmpty then [] else [acc.reverse]
  | c :: rest, acc =>
    if c = '\n' then acc.reverse :: splitLinesAux rest []
    else splitLinesAux rest (c :: acc)

/-- Strip one trailing carriage return from a line (Rust `str::lines`). -/
def dropTrailingCr (l : List Char) : List Char :=
  if l.getLast? = some '\r' then l.dropLast else l

/-- Rust `str::lines` over a decoded block. -/
def linesOf (block : List Char) : List (List Char) :=
  (splitLinesAux block []).map dropTrailingCr

/-- The extraction the façade runs over a listing block:
`out.lines().filter_map(Track::from_parts).collect()`. -/
def extract_tracks (block : List Char) : List Track :=
  (linesOf block).filterMap Track.from_parts

/-! ## The session model

`Session.input` is the stream of bytes the server will deliver; writes are
buffered away from reads, so a write only appends the command line to the
`sent` trace.  A read that never meets its terminator in `input` times out:
the blocking socket surfaces this as an I/O (`Transport`) error. -/

/-- A connected session: pending server output and the trace of commands
written so far (each `writeln!` records its command line, in order). -/
structure Session where
  input : List Char
  sent : List String
deriving DecidableEq, Repr

/-- `writeln!(self.socket, cmd)` followed by `flush`: record the command. -/
def session_write (s : Session) (cmd : String) : Session :=
  { s with sent := s.sent ++ [cmd] }

/-- Split the stream after the first `'\n'`, inclusive. -/
def takeThroughNl : List Char → Option (List Char × List Char)
  | [] => none
  | c :: cs =>
    if c = '\n' then some ([c], cs)
    else
      match takeThroughNl cs with
      | none => none
      | some (l, r) => some (c :: l, r)

/-- Split the stream after the first prompt byte `'>'`, inclusive. -/
def takeThroughPrompt : List Char → Option (List Char × List Char)
  | [] => none
  | c :: cs =>
    if c = '>' then some ([c], cs)
    else
      match takeThroughPrompt cs with
      | none => none
      | some (l, r) => some (c :: l, r)

/-- `IoSocket`'s overridden `read_line` (`src/client/socket.rs`): read up to
and including the next line terminator, then apply `trim_output`.  No
terminator arriving is a read timeout, surfaced as an I/O error. -/
def session_read_line (s : Session) : Except Error (List Char × Session) :=
  match takeThroughNl s.input with
  | none => Except.error Error.IoErr
  | some (raw, rest) => Except.ok (trim_output raw, { s with input := rest })

/-- `read_until(PROMPT, ..)`: read up to and including the next prompt byte.
No trimming is applied to blocks. -/
def session_read_block (s : Session) : Except Error (List Char × Session) :=
  match takeThroughPrompt s.input with
  | none => Except.error Error.IoErr
  | some (raw, rest) => Except.ok (raw, { s with input := rest })

/-! ## The command façade (`src/client.rs`) -/

/-- The parse/clamp step of `Client::get_volume` on an already-`read_line`-ed
buffer: `line.trim().parse::<u16>()?`, then return the value if it is at
most `MAX_VOLUME`, else `MAX_VOLUME`. -/
def get_volume_core (line : List Char) : Except Error Nat :=
  match parseU16 (rustTrim line) with
  | none => Except.error Error.ParseErr
  | some volume =>
    if volume ≤ MAX_VOLUME then Except.ok volume else Except.ok MAX_VOLUME

/-- `Client::get_volume` as a function of the raw response line delivered by
the server: the session's `read_line` applies `trim_output`, then the
parse/clamp step runs. -/
def get_volume_response (raw : List Char) : Except Error Nat :=
  get_volume_core (trim_output raw)

/-- `Client::get_volume` at the session level: write `volume`, read a line,
parse and clamp. -/
def get_volume_op (s : Session) : Except Error (Nat × Session) :=
  match session_read_line (session_write s "volume") with
  | Except.error e => Except.error e
  | Except.ok (line, s₁) =>
    match get_volume_core line with
    | Except.error e => Except.error e
    | Except.ok v => Except.ok (v, s₁)

/-- `Client::is_playing`: write `is_playing`, read a line; the trimmed text
`"1"` means playing. -/
def is_playing_op (s : Session) : Except Error (Bool × Session) :=
  match session_read_line (session_write s "is_playing") with
  | Except.error e => Except.error e
  | Except.ok (line, s₁) => Except.ok (decide (rustTrim line = ['1']), s₁)

/-- `Client::get_time`: write `get_time`, read a line,
`line.trim().parse().ok()` — a failed parse yields `none`, not an error. -/
def get_time_op (s : Session) : Except Error (Option Nat × Session) :=
  match session_read_line (session_write s "get_time") with
  | Except.error e => Except.error e
  | Except.ok (line, s₁) => Except.ok (parseU32 (rustTrim line), s₁)

/-- `Client::playlist`: write `playlist`, read a block up to the prompt,
extract the track rows from its lines. -/
def playlist_op (s : Session) : Except Error (List Track × Session) :=
  match session_read_block (session_write s "playlist") with
  | Except.error e => Except.error e
  | Except.ok (block, s₁) => Except.ok (extract_tracks block, s₁)

/-- The `while self.get_volume()? != amt { writeln!("volume {amt}") }` loop
of `Client::set_volume`, with `fuel` bounding the number of iterations
modelled; `some` of the final state on convergence, `none` when the loop is
still running after `fuel` iterations. -/
def set_volume_loop (fuel : Nat) (amt : Nat) (s : Session) :
    Except Error (Option Session) :=
  match fuel with
  | 0 => Except.ok none
  | fuel + 1 =>
    match get_volume_op s with
    | Except.error e => Except.error e
    | Except.ok (v, s₁) =>
      if v = amt then Except.ok (some s₁)
      else set_volume_loop fuel amt (session_write s₁ ("volume " ++ toString amt))

/-- `Client::set_volume`: clamp the request to `MAX_VOLUME`
(`if amt > MAX_VOLUME { amt = MAX_VOLUME }`) and run the convergence loop. -/
def set_volume (fuel : Nat) (amt : Nat) (s : Session) :
    Except Error (Option Session) :=
  set_volume_loop fuel (if MAX_VOLUME < amt then MAX_VOLUME else amt) s

/-- The `while !self.is_playing()? { writeln!("play") }` loop of
`Client::play`. -/
def play_loop (fuel : Nat) (s : Session) : Except Error (Option Session) :=
  match fuel with
  | 0 => Except.ok none
  | fuel + 1 =>
    match is_playing_op s with
    | Except.error e => Except.error e
    | Except.ok (b, s₁) =>
      if b then Except.ok (some s₁)
      else play_loop fuel (session_write s₁ "play")

/-- `Client::play`: query the playlist; only when it is non-empty run the
convergence loop, otherwise succeed immediately. -/
def play (fuel : Nat) (s : Session) : Except Error (Option Session) :=
  match playlist_op s with
  | Except.error e => Except.error e
  | Except.ok (ts, s₁) =>
    if ts.isEmpty then Except.ok (some s₁) else play_loop fuel s₁

/-- `Client::stop`: `while self.is_playing()? { writeln!("stop") }`. -/
def stop (fuel : Nat) (s : Session) : Except Error (Option Session) :=
  match fuel with
  | 0 => Except.ok none
  | fuel + 1 =>
    match is_playing_op s with
    | Except.error e => Except.error e
    | Except.ok (b, s₁) =>
      if b then stop fuel (session_write s₁ "stop")
      else Except.ok (some s₁)

/-! ## Decimal rendering of a server-reported value

Apparatus for stating claims that quantify over the numeric value the server
reports: `natToChars n` is the standard decimal rendering of `n`, the shape
of VLC's `volume` / `get_time` answers. -/

/-- Most-significant-first decimal digits of `n`; the first argument is
structural fuel (call with `fuel ≥ n`). -/
def natToCharsAux : Nat → Nat → List Char
  | _, 0 => []
  | 0, _ + 1 => []
  | fuel + 1, n + 1 =>
    natToCharsAux fuel ((n + 1) / 10) ++ [Nat.digitChar ((n + 1) % 10)]

/-- The decimal rendering of `n` (`"0"` for zero). -/
def natToChars (n : Nat) : List Char :=
  if n = 0 then ['0'] else natToCharsAux n n

/-! ## Helper lemmas -/

/-- The recursive strip of `trim_output` removes exactly the maximal leading
run of prompt bytes and spaces. -/
theorem trim_output_eq_dropWhile (l : List Char) :
    trim_output l = l.dropWhile (fun c => c = '>' || c = ' ') := by
  induction l with
  | nil => rfl
  | cons c cs ih =>
    by_cases h : (c = '>' || c = ' ') = true <;>
      simp [trim_output, List.dropWhile_cons, h, ih]

/-- `session_read_line` leaves the trace of written commands unchanged. -/
theorem session_read_line_sent (s : Session) (l : List Char) (s' : Session)
    (h : session_read_line s = Except.ok (l, s')) : s'.sent = s.sent := by
  unfold session_read_line at h
  cases hT : takeThroughNl s.input with
  | none => rw [hT] at h; exact absurd h (by simp)
  | some p =>
    obtain ⟨raw, rest⟩ := p
    rw [hT] at h
    simp only [Except.ok.injEq, Prod.mk.injEq] at h
    rw [← h.2]

/-- `session_read_line` can only fail with an I/O (transport) error. -/
theorem session_read_line_error (s : Session) (e : Error)
    (h : session_read_line s = Except.error e) : e = Error.IoErr := by
  unfold session_read_line at h
  cases hT : takeThroughNl s.input with
  | none => rw [hT] at h; simpa using h.symm
  | some p =>
    obtain ⟨raw, rest⟩ := p
    rw [hT] at h
    exact absurd h (by simp)

/-- A successful `is_playing` query appends exactly the `is_playing` command
to the trace. -/
theorem is_playing_op_sent (s : Session) (b : Bool) (s' : Session)
    (h : is_playing_op s = Except.ok (b, s')) :
    s'.sent = s.sent ++ ["is_playing"] := by
  unfold is_playing_op at h
  cases hR : session_read_line (session_write s "is_playing") with
  | error e => rw [hR] at h; exact absurd h (by simp)
  | ok p =>
    obtain ⟨line, s₁⟩ := p
    rw [hR] at h
    simp only [Except.ok.injEq, Prod.mk.injEq] at h
    rw [← h.2]
    exact session_read_line_sent _ _ _ hR

/-- A successful `playlist` query appends exactly the `playlist` command to
the trace. -/
theorem playlist_op_sent (s : Session) (ts : List Track) (s' : Session)
    (h : playlist_op s = Except.ok (ts, s')) :
    s'.sent = s.sent ++ ["playlist"] := by
  unfold playlist_op session_read_block at h
  cases hT : takeThroughPrompt (session_write s "playlist").input with
  | none => rw [hT] at h; exact absurd h (by simp)
  | some p =>
    obtain ⟨block, rest⟩ := p
    rw [hT] at h
    simp only [Except.ok.injEq, Prod.mk.injEq] at h
    rw [← h.2]
    simp [session_write]

/-- When the `is_playing` query answers `false`, one iteration of the `stop`
loop exits immediately. -/
theorem stop_of_not_playing (f : Nat) (s s₁ : Session)
    (h : is_playing_op s = Except.ok (false, s₁)) :
    stop (f + 1) s = Except.ok (some s₁) := by
  unfold stop
  rw [h]
  simp

/-! ## Claim theorems -/

/-- C2: every line read through the session's `read_line` has its maximal
leading prefix of sentinel (`'>'`) bytes and space characters removed before
it is returned; in particular `"> 25"` and `">  >25"` both trim to `"25"`. -/
theorem read_line_trims_artifacts (s : Session) (raw rest : List Char)
    (h : takeThroughNl s.input = some (raw, rest)) :
    session_read_line s =
      Except.ok (raw.dropWhile (fun c => c = '>' || c = ' '),
        { s with input := rest }) ∧
    trim_output "> 25".toList = "25".toList ∧
    trim_output ">  >25".toList = "25".toList := by
  refine ⟨?_, by decide, by decide⟩
  unfold session_read_line
  rw [h]
  show Except.ok (trim_output raw, { s with input := rest }) = _
  rw [trim_output_eq_dropWhile]

/-- Witness for C2 at the concrete stream `"> 25\n"`. -/
theorem read_line_trims_artifacts_witness :
    session_read_line { input := "> 25\n".toList, sent := [] } =
      Except.ok ("> 25\n".toList.dropWhile (fun c => c = '>' || c = ' '),
        { input := ([] : List Char), sent := ([] : List String) }) :=
  (read_line_trims_artifacts { input := "> 25\n".toList, sent := [] }
    "> 25\n".toList [] rfl).1

/-- C10: `trim_output` never grows its input: its result is a suffix of the
input (so each recursive call, which strips one character, is on a strictly
shorter string — the definition is accepted by structural recursion), and
the result does not begin with the sentinel byte or a space. -/
theorem trim_output_suffix_no_sentinel (l : List Char) :
    (trim_output l).length ≤ l.length ∧
    List.IsSuffix (trim_output l) l ∧
    ∀ c cs, trim_output l = c :: cs → ¬(c = '>' ∨ c = ' ') := by
  induction l with
  | nil =>
    refine ⟨Nat.le_refl _, List.suffix_rfl, ?_⟩
    intro c cs h
    exact absurd h (by simp [trim_output])
  | cons c cs ih =>
    by_cases h : (c = '>' || c = ' ') = true
    · have e : trim_output (c :: cs) = trim_output cs := by
        show (if (c = '>' || c = ' ') = true then trim_output cs else c :: cs) =
          trim_output cs
        rw [if_pos h]
      refine ⟨?_, ?_, ?_⟩
      · rw [e]; exact Nat.le_trans ih.1 (Nat.le_succ _)
      · rw [e]; exact ih.2.1.trans (List.suffix_cons c cs)
      · rw [e]; exact ih.2.2
    · have e : trim_output (c :: cs) = c :: cs := by
        show (if (c = '>' || c = ' ') = true then trim_output cs else c :: cs) =
          c :: cs
        rw [if_neg h]
      refine ⟨?_, ?_, ?_⟩
      · rw [e]
      · rw [e]
      · intro c' cs' he hbad
        rw [e] at he
        injection he with h1 _
        apply h
        rcases hbad with hb | hb
        · rw [← h1] at hb; simp [hb]
        · rw [← h1] at hb; simp [hb]

/-- C3: the track extractor maps the two reference lines to their records;
the `'*'` selection marker is dropped and the parenthesized text embedded in
the second title is kept (the greedy title capture reaches the last
duration anchor). -/
theorem track_grammar_roundtrip :
    Track.from_parts "| 8 - Chopin Nocturnes.mp3 (01:50:55)".toList =
      some ⟨8, "Chopin Nocturnes.mp3".toList, "01:50:55".toList⟩ ∧
    Track.from_parts "| *1 - Bach (00:00:01).mp3 (01:50:55)".toList =
      some ⟨1, "Bach (00:00:01).mp3".toList, "01:50:55".toList⟩ :=
  ⟨by decide, by decide⟩

/-- C4: the subtitle extractor accepts a negative index and captures the
title greedily to the end of the line, embedded separators included. -/
theorem subtitle_grammar_examples :
    Subtitle.from_parts "| -1 - Disable *".toList =
      some ⟨-1, "Disable *".toList⟩ ∧
    Subtitle.from_parts "| 2 - Track 1 - [English]".toList =
      some ⟨2, "Track 1 - [English]".toList⟩ :=
  ⟨by decide, by decide⟩

/-- C9: the track extractor rejects header/footer lines and list items
without a trailing duration, and extraction over a block is exactly the
in-order filter of its lines through the track grammar. -/
theorem track_grammar_rejections :
    Track.from_parts "+----[ Playlist - playlist ]".toList = none ∧
    Track.from_parts "| 1 - Playlist".toList = none ∧
    ∀ block, extract_tracks block = (linesOf block).filterMap Track.from_parts :=
  ⟨by decide, by decide, fun _ => rfl⟩

/-- C5: a requested volume above the bound is clamped before anything is
written, so for any amount above 200 (up to the `u8` range) `set_volume`
is literally the same computation as `set_volume 200` — same command
sequence, same result, on every session state and for every number of loop
iterations. -/
theorem set_volume_clamp_equiv (fuel amt : Nat) (s : Session)
    (h₁ : amt ≤ 255) (h₂ : 200 < amt) :
    set_volume fuel amt s = set_volume fuel 200 s := by
  unfold set_volume
  have e₁ : (if MAX_VOLUME < amt then MAX_VOLUME else amt) = 200 := by
    unfold MAX_VOLUME
    rw [if_pos h₂]
  have e₂ : (if MAX_VOLUME < 200 then MAX_VOLUME else 200) = 200 := by
    unfold MAX_VOLUME
    simp
  rw [e₁, e₂]

/-- Witness for C5 at `amt = 201` on a concrete session. -/
theorem set_volume_clamp_equiv_witness :
    set_volume 1 201 { input := "200\n".toList, sent := [] } =
      set_volume 1 200 { input := "200\n".toList, sent := [] } :=
  set_volume_clamp_equiv 1 201 { input := "200\n".toList, sent := [] }
    (by decide) (by decide)

/-- C6: when the playlist query returns no tracks, `play` succeeds
immediately: the only command written is `playlist`, and no `play` command
is ever issued (the convergence loop is not entered). -/
theorem play_empty_playlist_noop (fuel : Nat) (s s₁ : Session) (ts : List Track)
    (h : playlist_op s = Except.ok (ts, s₁)) (hts : ts = []) :
    play fuel s = Except.ok (some s₁) ∧
    s₁.sent = s.sent ++ ["playlist"] ∧
    "play" ∉ s₁.sent.drop s.sent.length := by
  have hsent := playlist_op_sent s ts s₁ h
  subst hts
  refine ⟨?_, hsent, ?_⟩
  · unfold play
    rw [h]
    rfl
  · rw [hsent, List.drop_left]
    decide

/-- Witness for C6: a server block containing no track rows. -/
theorem play_empty_playlist_noop_witness :
    play 0 { input := ">".toList, sent := [] } =
      Except.ok (some { input := ([] : List Char), sent := ["playlist"] }) :=
  (play_empty_playlist_noop 0 { input := ">".toList, sent := [] }
    { input := [], sent := ["playlist"] } [] rfl rfl).1

/-- C7: when the `is_playing` query answers `false`, `stop` returns success
after exactly one confirming query and writes no `stop` command; a second
`stop` immediately after behaves the same way, again issuing only the single
confirming query. -/
theorem stop_idempotent_when_stopped (f g : Nat) (s s₁ : Session)
    (h : is_playing_op s = Except.ok (false, s₁)) :
    stop (f + 1) s = Except.ok (some s₁) ∧
    s₁.sent = s.sent ++ ["is_playing"] ∧
    ∀ s₂, is_playing_op s₁ = Except.ok (false, s₂) →
      stop (g + 1) s₁ = Except.ok (some s₂) ∧
      s₂.sent = s₁.sent ++ ["is_playing"] := by
  refine ⟨stop_of_not_playing f s s₁ h, is_playing_op_sent s false s₁ h, ?_⟩
  intro s₂ h₂
  exact ⟨stop_of_not_playing g s₁ s₂ h₂, is_playing_op_sent s₁ false s₂ h₂⟩

/-- Witness for C7 on a server that answers `0` to both queries. -/
theorem stop_idempotent_when_stopped_witness :
    stop 1 { input := "0\n0\n".toList, sent := [] } =
      Except.ok (some { input := "0\n".toList, sent := ["is_playing"] }) :=
  (stop_idempotent_when_stopped 0 0 { input := "0\n0\n".toList, sent := [] }
    { input := "0\n".toList, sent := ["is_playing"] } rfl).1

/-- C8: a response line whose trimmed text is not an unsigned integer makes
`get_time` succeed with `none`; `get_time` can never surface a `Parse`
error. -/
theorem get_time_no_parse_error (s : Session) (line : List Char) (s₁ : Session)
    (h : session_read_line (session_write s "get_time") = Except.ok (line, s₁))
    (hp : parseU32 (rustTrim line) = none) :
    get_time_op s = Except.ok (none, s₁) ∧
    ∀ t : Session, get_time_op t ≠ Except.error Error.ParseErr := by
  constructor
  · unfold get_time_op
    rw [h]
    show Except.ok (parseU32 (rustTrim line), s₁) = _
    rw [hp]
  · intro t hbad
    unfold get_time_op at hbad
    cases hR : session_read_line (session_write t "get_time") with
    | error e =>
      rw [hR] at hbad
      have := session_read_line_error _ _ hR
      simp only [Except.error.injEq] at hbad
      rw [this] at hbad
      exact absurd hbad (by simp)
    | ok p =>
      obtain ⟨l, t₁⟩ := p
      rw [hR] at hbad
      exact absurd hbad (by simp)

/-- Witness for C8 on the non-numeric response line `"abc"`. -/
theorem get_time_no_parse_error_witness :
    get_time_op { input := "abc\n".toList, sent := [] } =
      Except.ok ((none : Option Nat), { input := ([] : List Char), sent := ["get_time"] }) :=
  (get_time_no_parse_error { input := "abc\n".toList, sent := [] }
    "abc\n".toList { input := [], sent := ["get_time"] } rfl (by decide)).1


/-! ## C1: the volume clamp and the `u16` parse bound -/

/-- The ten ASCII decimal digit characters. -/
def decDigits : List Char :=
  ['0', '1', '2', '3', '4', '5', '6', '7', '8', '9']

/-- `Nat.digitChar` of a value below ten is a decimal digit character. -/
theorem digitChar_mem_decDigits (d : Nat) (h : d < 10) :
    Nat.digitChar d ∈ decDigits := by
  interval_cases d <;> decide

/-- `Nat.digitChar` of a value below ten is in the regex digit class and
decodes back to the value (Rust's `c as u32 - 48`). -/
theorem digitChar_spec (d : Nat) (h : d < 10) :
    isDigitChar (Nat.digitChar d) = true ∧ (Nat.digitChar d).toNat - 48 = d := by
  interval_cases d <;> exact ⟨by decide, by decide⟩

/-- Every character of a decimal rendering is a decimal digit. -/
theorem natToCharsAux_mem (fuel : Nat) :
    ∀ n, ∀ c ∈ natToCharsAux fuel n, c ∈ decDigits := by
  induction fuel with
  | zero =>
    intro n c hc
    cases n <;> simp [natToCharsAux] at hc
  | succ fuel ih =>
    intro n c hc
    cases n with
    | zero => simp [natToCharsAux] at hc
    | succ n =>
      rw [show natToCharsAux (fuel + 1) (n + 1) =
          natToCharsAux fuel ((n + 1) / 10) ++ [Nat.digitChar ((n + 1) % 10)]
          from rfl] at hc
      rcases List.mem_append.mp hc with hc | hc
      · exact ih _ c hc
      · rcases List.mem_singleton.mp hc with rfl
        exact digitChar_mem_decDigits _ (Nat.mod_lt _ (by norm_num))

/-- The digit accumulator distributes over appending. -/
theorem parseDigitsAux_append (l₁ l₂ : List Char) (acc : Nat) :
    parseDigitsAux (l₁ ++ l₂) acc =
      (parseDigitsAux l₁ acc).bind fun a => parseDigitsAux l₂ a := by
  induction l₁ generalizing acc with
  | nil => simp [parseDigitsAux]
  | cons c cs ih =>
    by_cases h : isDigitChar c = true <;> simp [parseDigitsAux, h, ih]

/-- Parsing the rendered digits of `n` after any accumulated prefix value
recovers `n` in the low positions. -/
theorem parseDigitsAux_natToCharsAux (fuel : Nat) :
    ∀ n acc, n ≤ fuel →
      ∃ k, parseDigitsAux (natToCharsAux fuel n) acc = some (acc * 10 ^ k + n) := by
  induction fuel with
  | zero =>
    intro n acc h
    interval_cases n
    exact ⟨0, by simp [natToCharsAux, parseDigitsAux]⟩
  | succ fuel ih =>
    intro n acc h
    cases n with
    | zero => exact ⟨0, by simp [natToCharsAux, parseDigitsAux]⟩
    | succ n =>
      have hdiv : (n + 1) / 10 ≤ fuel := by
        have := Nat.div_lt_self (Nat.succ_pos n) (show 1 < 10 by norm_num)
        omega
      obtain ⟨k, hk⟩ := ih ((n + 1) / 10) acc hdiv
      have hlt : (n + 1) % 10 < 10 := Nat.mod_lt _ (by norm_num)
      obtain ⟨hd1, hd2⟩ := digitChar_spec _ hlt
      refine ⟨k + 1, ?_⟩
      rw [show natToCharsAux (fuel + 1) (n + 1) =
          natToCharsAux fuel ((n + 1) / 10) ++ [Nat.digitChar ((n + 1) % 10)]
          from rfl]
      rw [parseDigitsAux_append, hk]
      simp only [Option.bind_some, parseDigitsAux, hd1, if_true, hd2]
      rw [Option.some_bind]
      congr 1
      rw [Nat.add_mul, pow_succ, ← Nat.mul_assoc]
      omega

/-- `natToChars` of a positive number is non-empty. -/
theorem natToCharsAux_ne_nil (fuel n : Nat) (h1 : 0 < n) (h2 : n ≤ fuel) :
    natToCharsAux fuel n ≠ [] := by
  cases fuel with
  | zero => omega
  | succ fuel =>
    cases n with
    | zero => omega
    | succ n =>
      rw [show natToCharsAux (fuel + 1) (n + 1) =
          natToCharsAux fuel ((n + 1) / 10) ++ [Nat.digitChar ((n + 1) % 10)]
          from rfl]
      simp

/-- The unsigned Rust parse inverts the decimal rendering. -/
theorem parseUnsignedNat_natToChars (n : Nat) :
    parseUnsignedNat (natToChars n) = some n := by
  by_cases h0 : n = 0
  · subst h0; decide
  · have hpos : 0 < n := Nat.pos_of_ne_zero h0
    have hform : natToChars n = natToCharsAux n n := by
      unfold natToChars; rw [if_neg h0]
    obtain ⟨c, rest, hc⟩ :
        ∃ c rest, natToCharsAux n n = c :: rest := by
      cases hl : natToCharsAux n n with
      | nil => exact absurd hl (natToCharsAux_ne_nil n n hpos (Nat.le_refl n))
      | cons c rest => exact ⟨c, rest, rfl⟩
    have hcmem : c ∈ decDigits := by
      apply natToCharsAux_mem n n
      rw [hc]; exact List.mem_cons_self c rest
    have hplus : ¬(c = '+') := by
      have : ∀ d ∈ decDigits, ¬(d = '+') := by decide
      exact this c hcmem
    rw [hform, hc]
    show (if c = '+' then parseNatList rest else parseNatList (c :: rest)) = some n
    rw [if_neg hplus]
    show parseDigitsAux (c :: rest) 0 = some n
    rw [← hc]
    obtain ⟨k, hk⟩ := parseDigitsAux_natToCharsAux n n 0 (Nat.le_refl n)
    rw [hk]
    simp

/-- `trim_output` leaves an all-digit buffer unchanged. -/
theorem trim_output_of_decDigits (l : List Char)
    (h : ∀ c ∈ l, c ∈ decDigits) : trim_output l = l := by
  cases l with
  | nil => rfl
  | cons c cs =>
    have hc : c ∈ decDigits := h c (List.mem_cons_self c cs)
    have hfalse : (c = '>' || c = ' ') = false := by
      have : ∀ d ∈ decDigits, (d = '>' || d = ' ') = false := by decide
      exact this c hc
    show (if (c = '>' || c = ' ') = true then trim_output cs else c :: cs) = c :: cs
    rw [hfalse]
    simp

/-- `dropWhile` of the whitespace class leaves an all-digit string
unchanged. -/
theorem dropWhile_ws_of_decDigits (l : List Char)
    (h : ∀ c ∈ l, c ∈ decDigits) : l.dropWhile isWsChar = l := by
  cases l with
  | nil => rfl
  | cons c cs =>
    have hc : c ∈ decDigits := h c (List.mem_cons_self c cs)
    have hfalse : isWsChar c = false := by
      have : ∀ d ∈ decDigits, isWsChar d = false := by decide
      exact this c hc
    rw [List.dropWhile_cons, hfalse]
    simp

/-- Rust's `str::trim` leaves an all-digit string unchanged. -/
theorem rustTrim_of_decDigits (l : List Char)
    (h : ∀ c ∈ l, c ∈ decDigits) : rustTrim l = l := by
  unfold rustTrim
  rw [dropWhile_ws_of_decDigits l h]
  rw [dropWhile_ws_of_decDigits l.reverse (fun c hc => h c (List.mem_reverse.mp hc))]
  exact List.reverse_reverse l

/-- C1 (amended): a volume response line that fails the `u16` parse yields a
`Parse` error; a parsed value above 200 is clamped to 200; and every
server-reported decimal volume strictly above 200 *that fits the 16-bit
parse* (at most 65535) is returned as `Ok 200`.  (Reported values above
65535 overflow the `u16` parse and yield a `Parse` error instead — see the
counterexample.) -/
theorem get_volume_clamp_amended (raw : List Char) (n : Nat)
    (h₁ : 200 < n) (h₂ : n ≤ 65535) :
    (parseU16 (rustTrim (trim_output raw)) = none →
        get_volume_response raw = Except.error Error.ParseErr) ∧
    (∀ v, parseU16 (rustTrim (trim_output raw)) = some v → 200 < v →
        get_volume_response raw = Except.ok 200) ∧
    get_volume_response (natToChars n) = Except.ok 200 := by
  refine ⟨?_, ?_, ?_⟩
  · intro hp
    unfold get_volume_response get_volume_core
    rw [hp]
  · intro v hp hv
    unfold get_volume_response get_volume_core
    rw [hp]
    show (if v ≤ MAX_VOLUME then Except.ok v else Except.ok MAX_VOLUME) = _
    rw [if_neg (by unfold MAX_VOLUME; omega)]
    rfl
  · have hd : ∀ c ∈ natToChars n, c ∈ decDigits := by
      intro c hc
      unfold natToChars at hc
      rw [if_neg (by omega)] at hc
      exact natToCharsAux_mem n n c hc
    have ht : trim_output (natToChars n) = natToChars n :=
      trim_output_of_decDigits _ hd
    have hr : rustTrim (natToChars n) = natToChars n :=
      rustTrim_of_decDigits _ hd
    have hparse : parseU16 (natToChars n) = some n := by
      unfold parseU16
      rw [parseUnsignedNat_natToChars n, Option.some_bind, if_pos h₂]
    unfold get_volume_response get_volume_core
    rw [ht, hr, hparse]
    show (if n ≤ MAX_VOLUME then Except.ok n else Except.ok MAX_VOLUME) = _
    rw [if_neg (by unfold MAX_VOLUME; omega)]
    rfl

/-- Witness for C1 (amended) at the reported volume 250. -/
theorem get_volume_clamp_amended_witness :
    get_volume_response (natToChars 250) = Except.ok 200 :=
  (get_volume_clamp_amended [] 250 (by decide) (by decide)).2.2

/-- Counterexample to C1 as stated: the server-reported volume 70000 is
strictly above 200, yet `get_volume` does not return `Ok 200` — the `u16`
parse overflows and the call surfaces a `Parse` error. -/
theorem get_volume_overflow_counterexample :
    200 < 70000 ∧
    get_volume_response (natToChars 70000) = Except.error Error.ParseErr ∧
    get_volume_response (natToChars 70000) ≠ Except.ok 200 := by
  refine ⟨by norm_num, rfl, ?_⟩
  intro h
  rw [show get_volume_response (natToChars 70000) = Except.error Error.ParseErr
    from rfl] at h
  exact Except.noConfusion h
